import Mathlib

/-!
Shallow embedding of the Darya-Downloader pipeline
(src/darya.py and src/functions.py) together with theorems settling
the frozen claims about its specification.

Bytes of a file are modelled as `List Nat`; file paths whose content
matters are replaced by their byte content.
-/

abbrev Bytes := List Nat

/-! ### Quality lookup tables (src/functions.py) -/

/-- `resolution2representation` from src/functions.py: the fixed
`resolution_map` dictionary; `dict.get` on an unknown key yields `None`. -/
def resolution2representation (resolution : String) : Option String :=
  if resolution = "1920x1080" then some "2880000"
  else if resolution = "1280x720" then some "1280000"
  else if resolution = "854x480" then some "568000"
  else if resolution = "426x240" then some "142000"
  else none

/-- `audio_bitrate2representation` from src/functions.py: the fixed
`BITRATE_MAP` dictionary; `dict.get` on an unknown key yields `None`. -/
def audio_bitrate2representation (bitrate : String) : Option String :=
  if bitrate = "128k" then some "128000"
  else if bitrate = "256k" then some "256000"
  else if bitrate = "320k" then some "320000"
  else none

/-! ### `download_file` (src/functions.py, lines 93-131)

The network is an oracle giving the outcome of each successive HTTP
request for the url.  `interrupted` is a `ChunkedEncodingError` raised
mid-body (the bytes written so far are the residue left on disk);
`httpError` is a non-200 status; `ok` is a complete 200 response. -/

inductive NetOutcome where
  | ok (body : Bytes)
  | httpError (code : Nat)
  | interrupted (residue : Bytes)
deriving Repr, DecidableEq

/-- Result of a `download_file` call: whether a path (truthy value) was
returned, the destination file's content afterwards (`none` = the file
does not exist), and how many network requests were performed. -/
structure DLOut where
  okResult : Bool
  fs : Option Bytes
  requests : Nat
deriving Repr, DecidableEq

/-- `download_file(url, output, verbose, retries)` from src/functions.py.
`attempt` indexes the oracle (which request we are on), `fs` is the
destination file's current content.  The source: if the output exists it
is returned with no request; a 200 response writes the body and returns
the path; a non-200 response logs and returns `None` (no retry); a
`ChunkedEncodingError` removes the partial file and recurses with
`retries - 1` when `retries > 0`, otherwise returns `None` leaving the
partial file in place. -/
def download_file (oracle : Nat → NetOutcome) (attempt : Nat)
    (fs : Option Bytes) (retries : Nat) : DLOut :=
  match fs with
  | some b => ⟨true, some b, 0⟩
  | none =>
    match oracle attempt with
    | .ok body => ⟨true, some body, 1⟩
    | .httpError _ => ⟨false, none, 1⟩
    | .interrupted residue =>
      match retries with
      | 0 => ⟨false, some residue, 1⟩
      | Nat.succ rr =>
        let res := download_file oracle (attempt + 1) none rr
        ⟨res.okResult, res.fs, res.requests + 1⟩

/-- A successful `download_file` always leaves the destination file in
place: the returned truthy path points at an existing file. -/
theorem download_file_ok_fs (oracle : Nat → NetOutcome) :
    ∀ (retries attempt : Nat) (fs : Option Bytes),
      (download_file oracle attempt fs retries).okResult = true →
      ∃ b, (download_file oracle attempt fs retries).fs = some b := by
  intro retries
  induction retries with
  | zero =>
    intro attempt fs h
    match fs with
    | some b => exact ⟨b, rfl⟩
    | none =>
      unfold download_file at h ⊢
      cases ho : oracle attempt <;> simp [ho] at h ⊢
  | succ rr ih =>
    intro attempt fs h
    match fs with
    | some b => exact ⟨b, rfl⟩
    | none =>
      unfold download_file at h ⊢
      cases ho : oracle attempt <;> simp [ho] at h ⊢
      exact ih (attempt + 1) none h

/-- `download_file` performs at most `retries + 1` network requests. -/
theorem download_file_requests_le (oracle : Nat → NetOutcome) :
    ∀ (retries attempt : Nat) (fs : Option Bytes),
      (download_file oracle attempt fs retries).requests ≤ retries + 1 := by
  intro retries
  induction retries with
  | zero =>
    intro attempt fs
    match fs with
    | some b => simp [download_file]
    | none =>
      unfold download_file
      cases ho : oracle attempt <;> simp
  | succ rr ih =>
    intro attempt fs
    match fs with
    | some b => simp [download_file]
    | none =>
      unfold download_file
      cases ho : oracle attempt with
      | ok body => show 1 ≤ rr + 1 + 1; omega
      | httpError code => show 1 ≤ rr + 1 + 1; omega
      | interrupted residue =>
        show (download_file oracle (attempt + 1) none rr).requests + 1 ≤ rr + 1 + 1
        have := ih (attempt + 1) none
        omega

/-- An existing destination file short-circuits: truthy result, file
untouched, zero network requests. -/
theorem download_file_exists_skip (oracle : Nat → NetOutcome)
    (attempt : Nat) (b : Bytes) (retries : Nat) :
    download_file oracle attempt (some b) retries = ⟨true, some b, 0⟩ := by
  cases retries <;> rfl

/-- C4: a transient transport failure is retried up to a budget of 5
attempts with the partial file removed before each retry; a fetch that
fails twice transiently and succeeds on the third attempt yields a
successful result, the complete body on disk (no residual partial file)
after 3 requests; a non-success HTTP status is a hard failure reported
after exactly one request, with no retry. -/
theorem claim_C4 (orcT orcH : Nat → NetOutcome) (p1 p2 body : Bytes) (code : Nat)
    (h1 : orcT 0 = .interrupted p1) (h2 : orcT 1 = .interrupted p2)
    (h3 : orcT 2 = .ok body) (hH : orcH 0 = .httpError code) :
    download_file orcT 0 none 5 = ⟨true, some body, 3⟩
    ∧ download_file orcH 0 none 5 = ⟨false, none, 1⟩
    ∧ (∀ (orc : Nat → NetOutcome) (k : Nat) (fs : Option Bytes),
        (download_file orc k fs 5).requests ≤ 5 + 1) := by
  refine ⟨?_, ?_, ?_⟩
  · have e2 : download_file orcT 2 none 3 = ⟨true, some body, 1⟩ := by
      unfold download_file; rw [h3]
    have e1 : download_file orcT 1 none 4 = ⟨true, some body, 2⟩ := by
      unfold download_file; rw [h2]; simp [e2]
    unfold download_file; rw [h1]; simp [e1]
  · unfold download_file; rw [hH]
  · intro orc k fs
    exact download_file_requests_le orc 5 k fs

theorem claim_C4_witness :
    download_file
      (fun k => if k = 0 then NetOutcome.interrupted [1]
        else if k = 1 then NetOutcome.interrupted [2] else NetOutcome.ok [5])
      0 none 5 = ⟨true, some [5], 3⟩ :=
  (claim_C4
    (fun k => if k = 0 then NetOutcome.interrupted [1]
      else if k = 1 then NetOutcome.interrupted [2] else NetOutcome.ok [5])
    (fun _ => NetOutcome.httpError 500) [1] [2] [5] 500 rfl rfl rfl rfl).1

/-- C7: fetching is idempotent in the destination file: an existing
destination short-circuits with zero network requests and returns the
existing path, so after any successful fetch a second fetch against the
resulting destination performs zero requests and returns the identical
result. -/
theorem claim_C7 (oracle oracle2 : Nat → NetOutcome) (fs : Option Bytes)
    (retries : Nat)
    (h : (download_file oracle 0 fs retries).okResult = true) :
    (∀ (orc : Nat → NetOutcome) (b : Bytes) (r : Nat),
        download_file orc 0 (some b) r = ⟨true, some b, 0⟩)
    ∧ download_file oracle2 0 (download_file oracle 0 fs retries).fs retries =
        ⟨true, (download_file oracle 0 fs retries).fs, 0⟩ := by
  refine ⟨fun orc b r => download_file_exists_skip orc 0 b r, ?_⟩
  obtain ⟨b, hb⟩ := download_file_ok_fs oracle retries 0 fs h
  rw [hb]
  exact download_file_exists_skip oracle2 0 b retries

theorem claim_C7_witness :
    download_file (fun _ => NetOutcome.ok [3]) 0
        ((download_file (fun _ => NetOutcome.ok [3]) 0 none 5).fs) 5 =
      ⟨true, (download_file (fun _ => NetOutcome.ok [3]) 0 none 5).fs, 0⟩ :=
  (claim_C7 (fun _ => NetOutcome.ok [3]) (fun _ => NetOutcome.ok [3]) none 5 rfl).2

/-! ### Segment timeline (src/darya.py, `Darya.get_representations`,
lines 146-167)

An `<S>` element of the `SegmentTimeline`.  In the source, `t` is
`segment.get("t")` guarded by Python truthiness (`if t: time = int(t)`),
so `t = some v` models a present, non-empty `t` attribute of value `v`;
`d = int(segment.get("d", 0))` and `r = int(segment.get("r", 0))` parse
to (possibly negative) integers. -/
structure SEl where
  t : Option Int
  d : Int
  r : Int
deriving Repr, DecidableEq

/-- The inner `for _ in range(r + 1)` loop of `get_representations`:
emits `emit time`, then advances `time` by `d`, `n` times.  (`n` is
Python's `range(r+1)` length, i.e. `(r+1).toNat`.) -/
def sLoop {α : Type} (emit : Int → α) : Nat → Int → Int → List α
  | 0, _, _ => []
  | Nat.succ n, time, d => emit time :: sLoop emit n (time + d) d

/-- The outer `for segment in segment_timeline.findall("S", ...)` loop:
`time` starts at 0 at the call site; a present `t` resets it; the inner
loop emits `r + 1` items, leaving `time` advanced by `(r+1).toNat * d`. -/
def timelineFold {α : Type} (emit : Int → α) : List SEl → Int → List α
  | [], _ => []
  | s :: rest, time =>
    let time1 := match s.t with
      | some tv => tv
      | none => time
    sLoop emit (s.r + 1).toNat time1 s.d
      ++ timelineFold emit rest (time1 + ((s.r + 1).toNat : Int) * s.d)

/-- The media URL built for one segment: `base_url + media_template` with
`$RepresentationID$` and `$Time$` substituted (lines 161-163). -/
def mediaUrl (base media rid : String) (time : Int) : String :=
  base ++ ((media.replace "$RepresentationID$" rid).replace "$Time$" (toString time))

/-- The segment-URL list for one representation whose media template and
id are truthy: the timeline loop emitting `mediaUrl` at each step. -/
def timelineUrls (base media rid : String) (runs : List SEl) : List String :=
  timelineFold (mediaUrl base media rid) runs 0

/-- Spec-side description of the emitted times (closed form): each run
starts at its explicit `t` (else at the running clock), and its `k`-th
segment starts at `start + k * d` — the cumulative sum of the durations
of the previously emitted segments of the run; the clock leaves the run
advanced past all its emissions. -/
def timelineTimesSpec : List SEl → Int → List Int
  | [], _ => []
  | s :: rest, clock =>
    let start := match s.t with
      | some tv => tv
      | none => clock
    ((List.range (s.r + 1).toNat).map (fun k : Nat => start + (k : Int) * s.d))
      ++ timelineTimesSpec rest (start + ((s.r + 1).toNat : Int) * s.d)

theorem sLoop_eq_map {α : Type} (emit : Int → α) :
    ∀ (n : Nat) (time d : Int),
      sLoop emit n time d
        = (List.range n).map (fun k : Nat => emit (time + (k : Int) * d)) := by
  intro n
  induction n with
  | zero => intro time d; rfl
  | succ m ih =>
    intro time d
    rw [List.range_succ_eq_map, List.map_cons, List.map_map]
    simp only [sLoop, Nat.cast_zero, zero_mul, add_zero]
    congr 1
    rw [ih]
    apply List.map_congr_left
    intro k _
    simp only [Function.comp_apply]
    congr 1
    push_cast
    ring

theorem timelineFold_eq_spec {α : Type} (emit : Int → α) :
    ∀ (runs : List SEl) (time : Int),
      timelineFold emit runs time = (timelineTimesSpec runs time).map emit := by
  intro runs
  induction runs with
  | nil => intro time; rfl
  | cons s rest ih =>
    intro time
    simp only [timelineFold, timelineTimesSpec, List.map_append, List.map_map]
    congr 1
    · rw [sLoop_eq_map]
      rfl
    · rw [ih]

theorem timelineFold_length {α : Type} (emit : Int → α) :
    ∀ (runs : List SEl) (time : Int),
      (timelineFold emit runs time).length
        = (runs.map (fun s => (s.r + 1).toNat)).sum := by
  intro runs
  induction runs with
  | nil => intro time; rfl
  | cons s rest ih =>
    intro time
    simp only [timelineFold, List.length_append, List.map_cons, List.sum_cons]
    rw [sLoop_eq_map, List.length_map, List.length_range, ih]

/-- C2: for every timeline whose runs have non-negative repeat counts,
the parser emits exactly `r + 1` segment URLs per run, and the URLs are
exactly the media template instantiated at the spec times: run `k`-th
emission at `start + k * d` where `start` is the run's explicit `t`
(else the running clock, 0 initially), the clock advancing by `d` after
each emission. -/
theorem claim_C2 (base media rid : String) (runs : List SEl)
    (h : ∀ s ∈ runs, 0 ≤ s.r) :
    timelineUrls base media rid runs
      = (timelineTimesSpec runs 0).map (mediaUrl base media rid)
    ∧ (timelineUrls base media rid runs).length
      = (runs.map (fun s => s.r.toNat + 1)).sum := by
  constructor
  · exact timelineFold_eq_spec _ runs 0
  · rw [timelineUrls, timelineFold_length]
    congr 1
    apply List.map_congr_left
    intro s hs
    have := h s hs
    omega

theorem claim_C2_witness :
    (∀ s ∈ [SEl.mk none 2 1, SEl.mk (some 100) 3 0], 0 ≤ s.r)
    ∧ (timelineUrls "b/" "s$RepresentationID$-$Time$.m4s" "128000"
          [SEl.mk none 2 1, SEl.mk (some 100) 3 0]
        = (timelineTimesSpec [SEl.mk none 2 1, SEl.mk (some 100) 3 0] 0).map
            (mediaUrl "b/" "s$RepresentationID$-$Time$.m4s" "128000")
      ∧ (timelineUrls "b/" "s$RepresentationID$-$Time$.m4s" "128000"
          [SEl.mk none 2 1, SEl.mk (some 100) 3 0]).length
        = ([SEl.mk none 2 1, SEl.mk (some 100) 3 0].map
            (fun s => s.r.toNat + 1)).sum) :=
  ⟨by decide, claim_C2 "b/" "s$RepresentationID$-$Time$.m4s" "128000"
    [SEl.mk none 2 1, SEl.mk (some 100) 3 0] (by decide)⟩

/-! ### `get_representations` (src/darya.py, lines 91-176)

The parsed MPD is modelled structurally: a list of adaptation sets, each
with an optional `SegmentTemplate` child, an optional
`ContentProtection//cenc:pssh` element (its text), and `Representation`
children carrying optional `id` and `mimeType` attributes. -/

structure RepEl where
  id : Option String
  mimeType : Option String
deriving Repr, DecidableEq

structure SegmentTemplate where
  initialization : Option String
  media : Option String
  startNumber : Int
  timeline : Option (List SEl)
deriving Repr, DecidableEq

structure AdaptationSet where
  contentType : String
  segmentTemplate : Option SegmentTemplate
  pssh : Option String
  reps : List RepEl
deriving Repr, DecidableEq

/-- The dictionary built per representation (lines 127-174).  The keys
`representation-id`, `mime-type` and `segments` are always set (the
first two possibly to `None`); `pssh` and `init` are set only
conditionally, so `none` models an ABSENT key. -/
structure ReprDict where
  reprId : Option String
  mimeType : Option String
  pssh : Option String
  init : Option String
  segments : List String
deriving Repr, DecidableEq

/-- Python truthiness of an optional string: `None` and `""` are falsy. -/
def truthy : Option String → Bool
  | none => false
  | some s => s ≠ ""

/-- The body of the `for representation in ...` loop: build the dict for
one representation.  `init` is set only when both the initialization
template and the representation id are truthy (line 138); `pssh` is set
when the adaptation set has a pssh element (line 135); segments are
emitted from the timeline only when both the media template and the id
are truthy (line 160), and an absent timeline leaves them empty. -/
def processRep (base : String) (st : SegmentTemplate) (psshTxt : Option String)
    (rep : RepEl) : ReprDict :=
  let rid := rep.id
  let initField : Option String :=
    if truthy st.initialization && truthy rid then
      some (base ++ ((st.initialization.getD "").replace "$RepresentationID$"
        (rid.getD "")))
    else none
  let segs : List String :=
    match st.timeline with
    | none => []
    | some runs =>
      if truthy st.media && truthy rid then
        timelineUrls base (st.media.getD "") (rid.getD "") runs
      else []
  ⟨rid, rep.mimeType, psshTxt, initField, segs⟩

/-- `Darya.get_representations`: walk the adaptation sets, skipping any
without a `SegmentTemplate` (line 115), and collect one dict per
`Representation` child. -/
def get_representations (base : String) (sets : List AdaptationSet) :
    List ReprDict :=
  sets.flatMap (fun aset =>
    match aset.segmentTemplate with
    | none => []
    | some st => aset.reps.map (processRep base st aset.pssh))

/-! ### Field access in `Darya.download` (src/darya.py, lines 224-228)

`download()` reads `repr["init"]`, `repr["mime-type"]`,
`repr["representation-id"]`, `repr["segments"]` and `repr["pssh"]`
unconditionally; a missing key raises `KeyError`.  Only `init` and
`pssh` can be absent. -/

def downloadFieldAccess (rp : ReprDict) :
    Except String (String × Option String × Option String × List String × String) :=
  match rp.init with
  | none => .error "KeyError: init"
  | some i =>
    match rp.pssh with
    | none => .error "KeyError: pssh"
    | some p => .ok (i, rp.mimeType, rp.reprId, rp.segments, p)

/-! ### Representation selection (src/darya.py, line 230)

The guard `r2r(self.resolution) == rid or ab2r(self.audio) == rid`
decides which parsed representations the download body runs for; the
set of representations processed is this filter.  Python compares the
optional lookup result with the optional id (`None == None` is `True`). -/

def matchesSelection (resolution audio : String) (rid : Option String) : Bool :=
  resolution2representation resolution == rid
    || audio_bitrate2representation audio == rid

def selectReps (resolution audio : String) (reps : List ReprDict) :
    List ReprDict :=
  reps.filter (fun rp => matchesSelection resolution audio rp.reprId)

/-- Modelled from the spec: `RepresentationSelector.select` (spec §4.2,
§7) — absent from the code, which has no `SelectionError` or any other
error reporting around selection.  Per the spec's words, selection
succeeds only when exactly one video and one audio representation
match; any other count is a `SelectionError` reported upward. -/
def selectRepsSpec (resolution audio : String) (reps : List ReprDict) :
    Except String (ReprDict × ReprDict) :=
  let vids := reps.filter (fun rp =>
    resolution2representation resolution == rp.reprId)
  let auds := reps.filter (fun rp =>
    audio_bitrate2representation audio == rp.reprId)
  match vids, auds with
  | [v], [a] => .ok (v, a)
  | _, _ => .error "SelectionError"

/-- C10: `download()` requires every representation dict to carry both
`init` and `pssh`.  The parser leaves `pssh` absent when the adaptation
set has no pssh element and `init` absent when the segment template has
no initialization attribute, and the unconditional lookups then raise
`KeyError`; the error branch is reachable from a concrete manifest. -/
theorem claim_C10 (base : String) (aset : AdaptationSet) (st : SegmentTemplate)
    (hst : aset.segmentTemplate = some st) :
    (∀ rp ∈ get_representations base [aset],
        (aset.pssh = none → rp.pssh = none)
        ∧ (st.initialization = none → rp.init = none))
    ∧ (∀ rp : ReprDict, rp.pssh = none ∨ rp.init = none →
        ∃ e, downloadFieldAccess rp = Except.error e)
    ∧ (∃ rp ∈ get_representations "b/"
          [AdaptationSet.mk "video"
            (some (SegmentTemplate.mk (some "i$RepresentationID$.mp4")
              (some "m$Time$.m4s") 1 none)) none
            [RepEl.mk (some "2880000") (some "video/mp4")]],
        downloadFieldAccess rp = Except.error "KeyError: pssh") := by
  refine ⟨?_, ?_, ?_⟩
  · intro rp hrp
    simp only [get_representations, List.flatMap_cons, List.flatMap_nil,
      List.append_nil, hst, List.mem_map] at hrp
    obtain ⟨rep, _, hrep⟩ := hrp
    subst hrep
    constructor
    · intro hp
      simpa [processRep] using hp
    · intro hi
      simp [processRep, hi, truthy]
  · intro rp hor
    rcases hor with hp | hi
    · cases hin : rp.init with
      | none => exact ⟨"KeyError: init", by simp [downloadFieldAccess, hin]⟩
      | some i => exact ⟨"KeyError: pssh", by simp [downloadFieldAccess, hin, hp]⟩
    · exact ⟨"KeyError: init", by simp [downloadFieldAccess, hi]⟩
  · exact ⟨processRep "b/"
      (SegmentTemplate.mk (some "i$RepresentationID$.mp4") (some "m$Time$.m4s") 1 none)
      none (RepEl.mk (some "2880000") (some "video/mp4")),
      List.Mem.head _, rfl⟩

theorem claim_C10_witness :
    ∃ rp ∈ get_representations "b/"
        [AdaptationSet.mk "video"
          (some (SegmentTemplate.mk (some "i$RepresentationID$.mp4")
            (some "m$Time$.m4s") 1 none)) none
          [RepEl.mk (some "2880000") (some "video/mp4")]],
      downloadFieldAccess rp = Except.error "KeyError: pssh" :=
  (claim_C10 "b/"
    (AdaptationSet.mk "video"
      (some (SegmentTemplate.mk (some "i$RepresentationID$.mp4")
        (some "m$Time$.m4s") 1 none)) none
      [RepEl.mk (some "2880000") (some "video/mp4")])
    (SegmentTemplate.mk (some "i$RepresentationID$.mp4")
      (some "m$Time$.m4s") 1 none) rfl).2.2

/-- C5 (counterexample): with a representation list in which no id
matches the requested profile, the code's selection yields the empty
list — an empty success, processed without any error — whereas the
spec-modelled selector reports a SelectionError on the same input. -/
theorem claim_C5_counterexample :
    selectReps "1920x1080" "128k"
        [ReprDict.mk (some "999") (some "video/mp4") none none []] = []
    ∧ selectRepsSpec "1920x1080" "128k"
        [ReprDict.mk (some "999") (some "video/mp4") none none []]
      = Except.error "SelectionError" := ⟨rfl, rfl⟩

/-- C5 (amended): selection in the code is the pure id-match filter on
line 230 with no error reporting and no cardinality check: whenever no
representation matches, it yields the empty list and `download()`
simply processes no representation (no SelectionError exists). -/
theorem claim_C5_amended (resolution audio : String) (reps : List ReprDict)
    (h : ∀ rp ∈ reps, matchesSelection resolution audio rp.reprId = false) :
    selectReps resolution audio reps = [] := by
  simp only [selectReps, List.filter_eq_nil_iff]
  intro rp hrp
  simp [h rp hrp]

theorem claim_C5_amended_witness :
    selectReps "1920x1080" "128k"
        [ReprDict.mk (some "777") (some "video/mp4") none none []] = [] :=
  claim_C5_amended "1920x1080" "128k"
    [ReprDict.mk (some "777") (some "video/mp4") none none []] (by decide)

/-- C8: the fixed lookup tables send "1920x1080" to "2880000" and
"128k" to "128000", unknown labels to `none`; on a manifest with
exactly the representations "2880000" (video/mp4) and "128000"
(audio/mp4), selection for 1920x1080 + 128k keeps exactly these two,
and in general every selected representation has one of these ids. -/
theorem claim_C8 (s a : String)
    (hs : s ∉ ["1920x1080", "1280x720", "854x480", "426x240"])
    (ha : a ∉ ["128k", "256k", "320k"]) :
    resolution2representation "1920x1080" = some "2880000"
    ∧ audio_bitrate2representation "128k" = some "128000"
    ∧ resolution2representation s = none
    ∧ audio_bitrate2representation a = none
    ∧ selectReps "1920x1080" "128k"
        [ReprDict.mk (some "2880000") (some "video/mp4") none none [],
         ReprDict.mk (some "128000") (some "audio/mp4") none none []]
      = [ReprDict.mk (some "2880000") (some "video/mp4") none none [],
         ReprDict.mk (some "128000") (some "audio/mp4") none none []]
    ∧ (∀ (reps : List ReprDict) (rp : ReprDict),
        rp ∈ selectReps "1920x1080" "128k" reps →
        rp.reprId = some "2880000" ∨ rp.reprId = some "128000") := by
  simp only [List.mem_cons, List.not_mem_nil, or_false, not_or] at hs ha
  refine ⟨rfl, rfl, ?_, ?_, by decide, ?_⟩
  · simp [resolution2representation, hs.1, hs.2.1, hs.2.2.1, hs.2.2.2]
  · simp [audio_bitrate2representation, ha.1, ha.2.1, ha.2.2]
  · intro reps rp hrp
    simp only [selectReps, List.mem_filter] at hrp
    have hm := hrp.2
    simp only [matchesSelection, Bool.or_eq_true, beq_iff_eq] at hm
    rcases hm with hm | hm
    · exact Or.inl hm.symm
    · exact Or.inr hm.symm

theorem claim_C8_witness :
    ("1024x768" ∉ ["1920x1080", "1280x720", "854x480", "426x240"])
    ∧ ("64k" ∉ ["128k", "256k", "320k"])
    ∧ selectReps "1920x1080" "128k"
        [ReprDict.mk (some "2880000") (some "video/mp4") none none [],
         ReprDict.mk (some "128000") (some "audio/mp4") none none []]
      = [ReprDict.mk (some "2880000") (some "video/mp4") none none [],
         ReprDict.mk (some "128000") (some "audio/mp4") none none []] :=
  ⟨by decide, by decide,
    (claim_C8 "1024x768" "64k" (by decide) (by decide)).2.2.2.2.1⟩

/-! ### The `downloaded` dict and `Darya.combine` (src/darya.py,
lines 69, 199-205, 244-271)

`self.downloaded : Dict[int, pathlib.Path]` is modelled as its
insertion-ordered key list plus the position-to-content map (paths are
identified with the bytes of the file they point to). -/

structure PosMap where
  keys : List Nat
  val : Nat → Option Bytes

def emptyPosMap : PosMap := ⟨[], fun _ => none⟩

/-- Python dict assignment `self.downloaded[idx] = file_path`
(line 269): a new key is appended in insertion order, an existing key
keeps its place and its value is overwritten. -/
def dictInsert (m : PosMap) (k : Nat) (b : Bytes) : PosMap :=
  ⟨if k ∈ m.keys then m.keys else m.keys ++ [k],
   fun j => if j = k then some b else m.val j⟩

/-- `Darya.combine` (lines 199-205): iterate `sorted(self.downloaded)`
and append each key's file content to the open sink.  (The dict
comprehension re-keys by sorted key; `.get` on a present key is its
value, and a present value is truthy, so every sorted key's content is
written.) -/
def combineOut (m : PosMap) : Bytes :=
  ((List.insertionSort (· ≤ ·) m.keys).filterMap m.val).flatten

/-- The full stream written to the sink by `download()`: the init
segment's bytes are written first (lines 246-251), then `combine`
appends the segment bytes. -/
def assembled (init : Bytes) (m : PosMap) : Bytes :=
  init ++ combineOut m

/-- Modelled from the spec: `StreamAssembler.assemble` (spec §4.4) and
its `IncompleteStreamError` — absent from the code, whose `combine`
never fails.  Per the spec's words: fail if any position `0..N-1` has
no successful FetchResult, else emit init bytes followed by positions
`0..N-1` in ascending order. -/
inductive IncompleteStreamError where
  | gap
deriving Repr, DecidableEq

/-- Modelled from the spec: see `IncompleteStreamError`. -/
def assembleSpec (init : Bytes) (N : Nat) (m : PosMap) :
    Except IncompleteStreamError Bytes :=
  if (List.range N).all (fun k => (m.val k).isSome) then
    .ok (init ++ ((List.range N).filterMap m.val).flatten)
  else .error .gap

theorem filterMap_eq_map_forall {α β : Type} (f : α → Option β) (g : α → β) :
    ∀ l : List α, (∀ a ∈ l, f a = some (g a)) → l.filterMap f = l.map g := by
  intro l
  induction l with
  | nil => intro _; rfl
  | cons a rest ih =>
    intro h
    rw [List.filterMap_cons, h a (List.mem_cons_self a rest), List.map_cons,
      ih (fun a ha => h a (List.mem_cons_of_mem _ ha))]

/-- Two dicts with the same mapping whose key lists are permutations of
each other sort to the same key order, hence combine identically. -/
theorem combineOut_congr_perm (m m' : PosMap)
    (hperm : m.keys.Perm m'.keys) (hval : m.val = m'.val) :
    combineOut m = combineOut m' := by
  have hk : List.insertionSort (· ≤ ·) m.keys
      = List.insertionSort (· ≤ ·) m'.keys :=
    List.eq_of_perm_of_sorted
      (((List.perm_insertionSort _ m.keys).trans hperm).trans
        (List.perm_insertionSort _ m'.keys).symm)
      (List.sorted_insertionSort _ m.keys)
      (List.sorted_insertionSort _ m'.keys)
  unfold combineOut
  rw [hval, hk]

/-- Combine iterates the sorted present keys: if the key list is a
permutation of the sorted list `L`, the output is the concatenation of
the values over `L`. -/
theorem combineOut_eq_of_perm_sorted (m : PosMap) (L : List Nat)
    (hperm : m.keys.Perm L) (hs : L.Sorted (· ≤ ·)) :
    combineOut m = (L.filterMap m.val).flatten := by
  have hk : List.insertionSort (· ≤ ·) m.keys = L :=
    List.eq_of_perm_of_sorted
      ((List.perm_insertionSort _ m.keys).trans hperm)
      (List.sorted_insertionSort _ m.keys) hs
  unfold combineOut
  rw [hk]

theorem dictInsert_val (m : PosMap) (k : Nat) (b : Bytes) (j : Nat) :
    (dictInsert m k b).val j = if j = k then some b else m.val j := rfl

theorem dictInsert_keys (m : PosMap) (k : Nat) (b : Bytes) :
    (dictInsert m k b).keys
      = if k ∈ m.keys then m.keys else m.keys ++ [k] := rfl

/-- C3: the assembled output byte-equals the init bytes followed by the
segment bytes in strictly ascending position order, independent of the
insertion order of the position-to-content dict: two dicts holding the
same positions in any insertion orders combine identically, and a dict
holding exactly positions `0..N-1` combines to the forward-ordered
concatenation. -/
theorem claim_C3 (init : Bytes) (m m' : PosMap) (N : Nat) (seg : Nat → Bytes)
    (hperm : m.keys.Perm m'.keys) (hval : m.val = m'.val)
    (hkeys : m.keys.Perm (List.range N))
    (hv : ∀ k < N, m.val k = some (seg k)) :
    assembled init m = assembled init m'
    ∧ assembled init m = init ++ ((List.range N).map seg).flatten := by
  constructor
  · unfold assembled
    rw [combineOut_congr_perm m m' hperm hval]
  · unfold assembled
    rw [combineOut_eq_of_perm_sorted m (List.range N) hkeys
        (List.sorted_le_range N),
      filterMap_eq_map_forall m.val seg (List.range N)
        (fun k hk => hv k (List.mem_range.mp hk))]

theorem claim_C3_witness :
    assembled [9] ⟨[2, 0, 1], fun k => if k < 3 then some [k] else none⟩
      = assembled [9] ⟨[0, 1, 2], fun k => if k < 3 then some [k] else none⟩
    ∧ assembled [9] ⟨[2, 0, 1], fun k => if k < 3 then some [k] else none⟩
      = [9] ++ ((List.range 3).map (fun k => [k])).flatten :=
  claim_C3 [9] ⟨[2, 0, 1], fun k => if k < 3 then some [k] else none⟩
    ⟨[0, 1, 2], fun k => if k < 3 then some [k] else none⟩ 3 (fun k => [k])
    (by decide) rfl (by decide) (by decide)

/-- C1 (counterexample): a position set missing position 0 out of
`0..1` still produces output bytes — `combine` silently skips the gap
and emits the present segment after the init bytes — while the
spec-modelled assembler fails with IncompleteStreamError on the same
input.  No failure path exists in the code's assembly. -/
theorem claim_C1_counterexample :
    assembled [9] ⟨[1], fun j => if j = 1 then some [7] else none⟩ = [9, 7]
    ∧ assembleSpec [9] 2 ⟨[1], fun j => if j = 1 then some [7] else none⟩
      = Except.error IncompleteStreamError.gap := ⟨rfl, rfl⟩

/-- C1 (amended): `combine` never fails: for any set of present
positions `L` (with or without gaps in `0..N-1`), the stream
`init ++ (segment bytes over L in ascending order)` is produced
unconditionally, and this is the stream handed on to the decrypt and
mux steps. -/
theorem claim_C1_amended (init : Bytes) (m : PosMap) (L : List Nat)
    (seg : Nat → Bytes) (hperm : m.keys.Perm L) (hs : L.Sorted (· ≤ ·))
    (hv : ∀ k ∈ L, m.val k = some (seg k)) :
    assembled init m = init ++ (L.map seg).flatten := by
  unfold assembled
  rw [combineOut_eq_of_perm_sorted m L hperm hs,
    filterMap_eq_map_forall m.val seg L hv]

theorem claim_C1_amended_witness :
    assembled [9] ⟨[1], fun j => if j = 1 then some [7] else none⟩
      = [9] ++ ([1].map (fun _ => [7])).flatten :=
  claim_C1_amended [9] ⟨[1], fun j => if j = 1 then some [7] else none⟩ [1]
    (fun _ => [7]) (by decide) (by decide) (by decide)

/-- The segment fetch loop of `download()` (lines 253-269) in the run
where every fetch succeeds: every position `idx < n` ends up recorded
in `self.downloaded` with its segment's content.  (The completed
futures arrive in arbitrary order; the final dict values do not depend
on it because the keys are distinct, so the fold is taken in index
order.) -/
def downloadRep (m : PosMap) (n : Nat) (seg : Nat → Bytes) : PosMap :=
  (List.range n).foldl (fun acc i => dictInsert acc i (seg i)) m

theorem downloadRep_succ (m : PosMap) (n : Nat) (seg : Nat → Bytes) :
    downloadRep m (n + 1) seg = dictInsert (downloadRep m n seg) n (seg n) := by
  unfold downloadRep
  rw [List.range_succ, List.foldl_append]
  rfl

theorem downloadRep_val (m : PosMap) (seg : Nat → Bytes) :
    ∀ (n j : Nat), (downloadRep m n seg).val j
      = if j < n then some (seg j) else m.val j := by
  intro n
  induction n with
  | zero => intro j; simp [downloadRep]
  | succ k ih =>
    intro j
    rw [downloadRep_succ, dictInsert_val]
    rcases Nat.lt_trichotomy j k with hlt | heq | hgt
    · rw [if_neg (by omega), ih j, if_pos hlt, if_pos (by omega)]
    · subst heq
      rw [if_pos rfl, if_pos (by omega)]
    · rw [if_neg (by omega), ih j, if_neg (by omega), if_neg (by omega)]

theorem downloadRep_keys_empty (seg : Nat → Bytes) :
    ∀ n : Nat, (downloadRep emptyPosMap n seg).keys = List.range n := by
  intro n
  induction n with
  | zero => rfl
  | succ k ih =>
    rw [downloadRep_succ, dictInsert_keys, ih,
      if_neg List.not_mem_range_self, List.range_succ]

theorem downloadRep_keys_of_mem (m : PosMap) (seg : Nat → Bytes) :
    ∀ n : Nat, (∀ i < n, i ∈ m.keys) →
      (downloadRep m n seg).keys = m.keys := by
  intro n
  induction n with
  | zero => intro _; rfl
  | succ k ih =>
    intro h
    have hk := ih (fun i hi => h i (by omega))
    rw [downloadRep_succ, dictInsert_keys, hk, if_pos (h k (by omega))]

/-- C9: `self.downloaded` is created once per instance
(`__post_init__`, line 69) and never cleared between the
representations processed in one `download()` call: after a video
representation with `nv` segments and then an audio representation with
`na ≤ nv` segments, the trailing positions `na ≤ k < nv` of the shared
dict still hold the video segment files, so the audio stream assembled
from it is the audio segments followed by the leftover video
segments. -/
theorem claim_C9 (nv na : Nat) (vseg aseg : Nat → Bytes) (initA : Bytes)
    (h : na ≤ nv) :
    (∀ k, na ≤ k → k < nv →
      (downloadRep (downloadRep emptyPosMap nv vseg) na aseg).val k
        = some (vseg k))
    ∧ assembled initA (downloadRep (downloadRep emptyPosMap nv vseg) na aseg)
      = initA ++ ((List.range nv).map
          (fun k => if k < na then aseg k else vseg k)).flatten := by
  have hval : ∀ j,
      (downloadRep (downloadRep emptyPosMap nv vseg) na aseg).val j
        = if j < na then some (aseg j)
          else if j < nv then some (vseg j) else none := by
    intro j
    rw [downloadRep_val, downloadRep_val]
    rfl
  have hkeys : (downloadRep (downloadRep emptyPosMap nv vseg) na aseg).keys
      = List.range nv := by
    rw [downloadRep_keys_of_mem _ _ na
        (fun i hi => by
          rw [downloadRep_keys_empty]
          exact List.mem_range.mpr (by omega)),
      downloadRep_keys_empty]
  constructor
  · intro k h1 h2
    rw [hval k, if_neg (by omega), if_pos h2]
  · unfold assembled
    rw [combineOut_eq_of_perm_sorted _ (List.range nv)
        (by rw [hkeys]) (List.sorted_le_range nv),
      filterMap_eq_map_forall _ (fun k => if k < na then aseg k else vseg k)
        (List.range nv)
        (fun k hk => by
          have hlt := List.mem_range.mp hk
          rw [hval k]
          by_cases hj : k < na
          · simp [hj]
          · simp [hj, hlt])]

theorem claim_C9_witness :
    assembled [0]
        (downloadRep (downloadRep emptyPosMap 2 (fun k => [10 + k])) 1
          (fun k => [20 + k]))
      = [0] ++ ((List.range 2).map
          (fun k => if k < 1 then [20 + k] else [10 + k])).flatten :=
  (claim_C9 2 1 (fun k => [10 + k]) (fun k => [20 + k]) [0] (by decide)).2

/-! ### The list-shaped (batch) branch of `Darya.download()`
(src/darya.py, lines 320-336) -/

/-- The batch loop: `for idx, item in enumerate(copy.deepcopy(item))`
constructs a child pipeline, runs it, records a truthy result in the
local `downloaded` dict — and then hits an unconditional `break`
(line 330), so at most the first child is processed; there is no
`try/except` around the child run, so a child failure propagates. -/
def batchDownload {α β : Type} (children : List α)
    (run : α → Except String (Option β)) : Except String (List (Nat × β)) :=
  match children with
  | [] => .ok []
  | c :: _ =>
    match run c with
    | .error e => .error e
    | .ok (some p) => .ok [(0, p)]
    | .ok none => .ok []

/-- C6 (counterexample): with two child items whose runs both succeed,
the batch records only the first child's result — the second item's
pipeline never runs — and a failing first child propagates its error
out of the batch instead of being caught and logged per-item. -/
theorem claim_C6_counterexample :
    batchDownload ["i0", "i1"] (fun i => Except.ok (some i))
      = Except.ok [(0, "i0")]
    ∧ batchDownload ["i0", "i1"]
        (fun _ => (Except.error "boom" : Except String (Option String)))
      = Except.error "boom" := ⟨rfl, rfl⟩

/-- C6 (amended): the batch branch processes only the first child item
(the loop body ends in an unconditional `break`, so the remaining
children are ignored), and a failure in that child is not caught: it
propagates as the failure of the whole batch. -/
theorem claim_C6_amended {α β : Type} (c : α) (rest : List α)
    (run : α → Except String (Option β)) (e : String)
    (h : run c = .error e) :
    batchDownload (c :: rest) run = batchDownload [c] run
    ∧ batchDownload (c :: rest) run = .error e := by
  constructor
  · rfl
  · simp [batchDownload, h]

theorem claim_C6_amended_witness :
    batchDownload ["i0", "i1"]
        (fun _ => (Except.error "boom" : Except String (Option String)))
      = batchDownload ["i0"]
        (fun _ => (Except.error "boom" : Except String (Option String)))
    ∧ batchDownload ["i0", "i1"]
        (fun _ => (Except.error "boom" : Except String (Option String)))
      = Except.error "boom" :=
  claim_C6_amended "i0" ["i1"] (fun _ => Except.error "boom") "boom" rfl
